import Mathlib

/-!
Verification development for `cmk/base/agent_based/data_provider.py`.

The Python module is embedded shallowly: each class becomes a structure,
mutation becomes explicit state passing, Python dictionaries become either
association lists (where iteration order matters) or functions into `Option`
(where only lookup and update are used), and a parse function that may raise
an exception becomes a function into `Option` (`none` models the raised
exception).  The debug-mode escape hatch (`cmk.utils.debug.enabled()`), which
re-raises instead of recording the error, is an external global that is off in
production; the embedding models the default (debug off) path, which is the
path all claims address.
-/

abbrev SectionName := String

abbrev ParsedSectionName := String

abbrev HostName := String

/-- A raw section row: an ordered sequence of fields. -/
abbrev Row := List String

/-- Raw data of one section: an ordered sequence of rows. -/
abbrev RawData := List Row

/-- Python `_CacheInfo = tuple[int, int]`: (collection timestamp, validity interval). -/
abbrev CacheInfo := Int × Int

/-- Source kinds, from `cmk.checkers.SourceType` (spec: regular host, management
board, piggyback). -/
inductive SourceType where
  | HOST
  | MANAGEMENT
  | PIGGYBACK
deriving DecidableEq

/-- Host key: (hostname, source type), from `cmk.checkers.HostKey`. -/
structure HostKey where
  hostname : HostName
  source_type : SourceType
deriving DecidableEq

/-- Piggybacked raw data: payloads keyed by the piggybacked hostname. -/
abbrev PiggybackData := List (HostName × List String)

/-- Modelled from the spec: `cmk.checkers.host_sections.HostSections` (the
RawSectionStore) is not part of the excerpt; per the spec it is a per host-key
container with a mapping raw section name to rows, a mapping raw section name
to cache-info, and piggybacked raw data.  `sections` is an association list
because `make_providers` iterates its keys in order; `cache_info` is only ever
looked up, so it is a function into `Option`. -/
structure HostSections where
  sections : List (SectionName × RawData)
  cache_info : SectionName → Option CacheInfo
  piggybacked_raw_data : PiggybackData

/-- Python `_ParsingResult`: parsed data together with optional cache info. -/
structure ParsingResult (α : Type) where
  data : α
  cache_info : Option CacheInfo

/-- Structured content of one entry of the parsing-error list: the arguments
`SectionsParser._parse_raw_data` hands to the external collaborator
`create_section_crash_dump` (`rtc_package` is always `None` and omitted). -/
structure SectionCrashDump where
  operation : String
  section_name : SectionName
  section_content : RawData
  host_name : HostName
deriving DecidableEq

/-- Model of the external collaborator `create_section_crash_dump`: it returns
an opaque diagnostic artifact built from its arguments. -/
def create_section_crash_dump (operation : String) (section_name : SectionName)
    (section_content : RawData) (host_name : HostName) : SectionCrashDump :=
  ⟨operation, section_name, section_content, host_name⟩

/-- Assignment `m[k] = v` on a Python dictionary viewed as a lookup function. -/
def updateFn {κ β : Type} [DecidableEq κ] (m : κ → Option β) (k : κ) (v : β) :
    κ → Option β :=
  fun s => if s = k then some v else m s

/-- Python class `SectionsParser`.  `memoized_results` is the dictionary
`_memoized_results : dict[SectionName, _ParsingResult | None]`; an entry
`some none` is a memoized "absent". -/
structure SectionsParser (α : Type) where
  host_sections : HostSections
  parsing_errors : List SectionCrashDump
  memoized_results : SectionName → Option (Option (ParsingResult α))
  host_name : HostName

/-- Python `SectionsParser.__init__`. -/
def SectionsParser.init {α : Type} (host_sections : HostSections)
    (host_name : HostName) : SectionsParser α :=
  { host_sections := host_sections
    parsing_errors := []
    memoized_results := fun _ => none
    host_name := host_name }

/-- Python `SectionsParser._parse_raw_data` (debug off).  The third component
counts how often `parse_function` was invoked during this call. -/
def SectionsParser.parse_raw_data {α : Type} (ps : SectionsParser α)
    (section_name : SectionName) (parse_function : RawData → Option α) :
    Option α × SectionsParser α × Nat :=
  match ps.host_sections.sections.lookup section_name with
  | none => (none, ps, 0)
  | some raw_data =>
    match parse_function raw_data with
    | some parsed => (some parsed, ps, 1)
    | none =>
      (none,
        { ps with
          parsing_errors := ps.parsing_errors ++
            [create_section_crash_dump "parsing" section_name raw_data ps.host_name] },
        1)

/-- Python `SectionsParser.parse`.  Returns the parsing result, the parser
state after the call, and the number of invocations of `parse_function`. -/
def SectionsParser.parse {α : Type} (ps : SectionsParser α)
    (section_name : SectionName) (parse_function : RawData → Option α) :
    Option (ParsingResult α) × SectionsParser α × Nat :=
  match ps.memoized_results section_name with
  | some r => (r, ps, 0)
  | none =>
    let raw := ps.parse_raw_data section_name parse_function
    let r : Option (ParsingResult α) :=
      match raw.1 with
      | none => none
      | some parsed =>
        some ⟨parsed, raw.2.1.host_sections.cache_info section_name⟩
    (r,
      { raw.2.1 with
        memoized_results := updateFn raw.2.1.memoized_results section_name r },
      raw.2.2)

/-- Python `SectionsParser.disable`: force-memoize `None` for each name. -/
def SectionsParser.disable {α : Type} (ps : SectionsParser α)
    (raw_section_names : List SectionName) : SectionsParser α :=
  raw_section_names.foldl
    (fun p section_name =>
      { p with memoized_results := updateFn p.memoized_results section_name none })
    ps

/-- Python `SectionPlugin` registration record (the fields the data provider
reads: raw section name, parsed section name, parse function, supersedes). -/
structure SectionPlugin (α : Type) where
  name : SectionName
  parsed_section_name : ParsedSectionName
  parse_function : RawData → Option α
  supersedes : List SectionName

/-- Python `ResolvedResult`. -/
structure ResolvedResult (α : Type) where
  «section» : SectionPlugin α
  parsed_data : α
  cache_info : Option CacheInfo

/-- Python class `ParsedSectionsResolver` after `__init__`. -/
structure ParsedSectionsResolver (α : Type) where
  section_plugins : List (SectionPlugin α)
  superseders : SectionName → List (SectionPlugin α)
  producers : ParsedSectionName → List (SectionPlugin α)
  memoized_results : ParsedSectionName → Option (Option (ResolvedResult α))

/-- Python `ParsedSectionsResolver._init_superseders`: for each raw name, the
plugins that declare it superseded, in registration order. -/
def ParsedSectionsResolver.init_superseders {α : Type}
    (section_plugins : List (SectionPlugin α)) :
    SectionName → List (SectionPlugin α) :=
  fun superseded => section_plugins.filter (fun s => superseded ∈ s.supersedes)

/-- Python `ParsedSectionsResolver._init_producers`: for each parsed name, the
plugins producing it, in registration order. -/
def ParsedSectionsResolver.init_producers {α : Type}
    (section_plugins : List (SectionPlugin α)) :
    ParsedSectionName → List (SectionPlugin α) :=
  fun pname => section_plugins.filter (fun s => s.parsed_section_name = pname)

/-- Python `ParsedSectionsResolver.__init__`. -/
def ParsedSectionsResolver.init {α : Type}
    (section_plugins : List (SectionPlugin α)) : ParsedSectionsResolver α :=
  { section_plugins := section_plugins
    superseders := ParsedSectionsResolver.init_superseders section_plugins
    producers := ParsedSectionsResolver.init_producers section_plugins
    memoized_results := fun _ => none }

/-- One iteration of the superseder loop inside `ParsedSectionsResolver.resolve`:
parse the superseder; if it produced data, disable everything it supersedes. -/
def superseder_step {α : Type} (p : SectionsParser α)
    (superseder : SectionPlugin α) : SectionsParser α :=
  let r := p.parse superseder.name superseder.parse_function
  if (r.1).isSome then (r.2.1).disable superseder.supersedes else r.2.1

/-- The producer loop of `ParsedSectionsResolver.resolve`: try each producer in
registration order after running its superseder pass; the first producer whose
own section parses wins. -/
def resolveProducers {α : Type}
    (superseders : SectionName → List (SectionPlugin α)) :
    List (SectionPlugin α) → SectionsParser α →
      Option (ResolvedResult α) × SectionsParser α
  | [], p => (none, p)
  | producer :: rest, p =>
    let p1 := (superseders producer.name).foldl superseder_step p
    let r := p1.parse producer.name producer.parse_function
    match r.1 with
    | some parsing_result =>
      (some ⟨producer, parsing_result.data, parsing_result.cache_info⟩, r.2.1)
    | none => resolveProducers superseders rest r.2.1

/-- Python `ParsedSectionsResolver.resolve`.  Returns the resolved result, the
resolver state after the call, and the parser state after the call. -/
def ParsedSectionsResolver.resolve {α : Type} (resolver : ParsedSectionsResolver α)
    (p : SectionsParser α) (parsed_section_name : ParsedSectionName) :
    Option (ResolvedResult α) × ParsedSectionsResolver α × SectionsParser α :=
  match resolver.memoized_results parsed_section_name with
  | some r => (r, resolver, p)
  | none =>
    let r := resolveProducers resolver.superseders
      (resolver.producers parsed_section_name) p
    (r.1,
      { resolver with
        memoized_results :=
          updateFn resolver.memoized_results parsed_section_name r.1 },
      r.2)

/-- Python `Provider = tuple[ParsedSectionsResolver, SectionsParser]`. -/
abbrev Provider (α : Type) := ParsedSectionsResolver α × SectionsParser α

/-- Inner loop of the dictionary comprehension in `ParsedSectionsBroker.resolve`
for one provider: resolve every desired name in order, threading the provider's
state, overwriting the accumulated mapping at each non-absent outcome. -/
def ParsedSectionsBroker.resolveProvider {α : Type}
    (acc : ParsedSectionName → Option (ResolvedResult α)) (pr : Provider α) :
    List ParsedSectionName →
      (ParsedSectionName → Option (ResolvedResult α)) × Provider α
  | [] => (acc, pr)
  | parsed_section_name :: rest =>
    let r := pr.1.resolve pr.2 parsed_section_name
    match r.1 with
    | some resolved =>
      ParsedSectionsBroker.resolveProvider
        (updateFn acc parsed_section_name resolved) (r.2.1, r.2.2) rest
    | none => ParsedSectionsBroker.resolveProvider acc (r.2.1, r.2.2) rest

/-- Python `ParsedSectionsBroker.resolve`: the dictionary comprehension, outer
loop over providers, inner loop over the desired names; later assignments to
the same key overwrite earlier ones. -/
def ParsedSectionsBroker.resolve {α : Type}
    (parsed_section_names : List ParsedSectionName)
    (providers : List (Provider α)) :
    ParsedSectionName → Option (ResolvedResult α) :=
  providers.foldl
    (fun acc pr =>
      (ParsedSectionsBroker.resolveProvider acc pr parsed_section_names).1)
    (fun _ => none)

/-- Python `ParsedSectionsBroker.get_cache_info`: `None` on an empty input,
else the minimum of the timestamps and the maximum of the intervals. -/
def ParsedSectionsBroker.get_cache_info (cache_infos : List CacheInfo) :
    Option CacheInfo :=
  match cache_infos with
  | [] => none
  | c :: rest =>
    some
      (rest.foldl (fun m x => min m x.1) c.1,
       rest.foldl (fun m x => max m x.2) c.2)

/-- Python `store_piggybacked_sections`: the calls issued to the external
collaborator `cmk.utils.piggyback.store_piggyback_raw_data`, in order; a
host key of source type management board is skipped. -/
def store_piggybacked_sections
    (collected_host_sections : List (HostKey × HostSections)) :
    List (HostName × PiggybackData) :=
  collected_host_sections.foldl
    (fun calls entry =>
      if entry.1.source_type = SourceType.MANAGEMENT then calls
      else calls ++ [(entry.1.hostname, entry.2.piggybacked_raw_data)])
    []

/-- Helper lemmas about the dictionary-update function. -/
theorem updateFn_apply {κ β : Type} [DecidableEq κ] (m : κ → Option β) (k : κ)
    (v : β) (s : κ) : updateFn m k v s = if s = k then some v else m s := rfl

/-- Unfolding `disable` one name at a time. -/
theorem SectionsParser.disable_cons {α : Type} (ps : SectionsParser α)
    (k : SectionName) (rest : List SectionName) :
    ps.disable (k :: rest) =
      ({ ps with memoized_results := updateFn ps.memoized_results k none }).disable
        rest := rfl

/-- Disabling an empty list of names is the identity. -/
theorem SectionsParser.disable_nil {α : Type} (ps : SectionsParser α) :
    ps.disable [] = ps := rfl

/-- Effect of `disable` on the memoization dictionary: every listed name is
overwritten with a memoized "absent", all other entries are untouched. -/
theorem SectionsParser.disable_memoized_results {α : Type} (ps : SectionsParser α)
    (l : List SectionName) (s : SectionName) :
    (ps.disable l).memoized_results s =
      if s ∈ l then some none else ps.memoized_results s := by
  induction l generalizing ps with
  | nil => simp [SectionsParser.disable_nil]
  | cons k rest ih =>
    rw [SectionsParser.disable_cons, ih]
    by_cases h1 : s ∈ rest
    · simp [h1, List.mem_cons]
    · by_cases h2 : s = k
      · simp [h1, h2, updateFn]
      · simp [h1, h2, updateFn, List.mem_cons]

/-- The `disable` call leaves the host sections untouched. -/
theorem SectionsParser.disable_host_sections {α : Type} (ps : SectionsParser α)
    (l : List SectionName) : (ps.disable l).host_sections = ps.host_sections := by
  induction l generalizing ps with
  | nil => rfl
  | cons k rest ih => rw [SectionsParser.disable_cons]; exact ih _

/-- The `disable` call leaves the parsing-error list untouched. -/
theorem SectionsParser.disable_parsing_errors {α : Type} (ps : SectionsParser α)
    (l : List SectionName) : (ps.disable l).parsing_errors = ps.parsing_errors := by
  induction l generalizing ps with
  | nil => rfl
  | cons k rest ih => rw [SectionsParser.disable_cons]; exact ih _

/-- A memoized entry is returned as is, without any state change and without
invoking the parse function. -/
theorem SectionsParser.parse_hit {α : Type} (ps : SectionsParser α)
    (s : SectionName) (f : RawData → Option α)
    (r : Option (ParsingResult α)) (h : ps.memoized_results s = some r) :
    ps.parse s f = (r, ps, 0) := by
  unfold SectionsParser.parse
  rw [h]

/-- A successful first parse: the result carries the store's cache info and is
memoized; the parse function ran exactly once. -/
theorem SectionsParser.parse_success {α : Type} (ps : SectionsParser α)
    (s : SectionName) (f : RawData → Option α) (raw : RawData) (v : α)
    (h1 : ps.memoized_results s = none)
    (h2 : ps.host_sections.sections.lookup s = some raw)
    (h3 : f raw = some v) :
    ps.parse s f =
      (some ⟨v, ps.host_sections.cache_info s⟩,
        { ps with
          memoized_results := updateFn ps.memoized_results s
            (some ⟨v, ps.host_sections.cache_info s⟩) },
        1) := by
  unfold SectionsParser.parse SectionsParser.parse_raw_data
  simp only [h1, h2, h3]

/-- A first parse of a section without raw data: absent is memoized and the
parse function is never invoked. -/
theorem SectionsParser.parse_no_raw {α : Type} (ps : SectionsParser α)
    (s : SectionName) (f : RawData → Option α)
    (h1 : ps.memoized_results s = none)
    (h2 : ps.host_sections.sections.lookup s = none) :
    ps.parse s f =
      (none, { ps with memoized_results := updateFn ps.memoized_results s none },
        0) := by
  unfold SectionsParser.parse SectionsParser.parse_raw_data
  rw [h1, h2]

/-- A first parse whose parse function raises: one crash dump is appended,
absent is memoized and returned, the parse function ran exactly once. -/
theorem SectionsParser.parse_fault {α : Type} (ps : SectionsParser α)
    (s : SectionName) (f : RawData → Option α) (raw : RawData)
    (h1 : ps.memoized_results s = none)
    (h2 : ps.host_sections.sections.lookup s = some raw)
    (h3 : f raw = none) :
    ps.parse s f =
      (none,
        { ps with
          parsing_errors := ps.parsing_errors ++
            [create_section_crash_dump "parsing" s raw ps.host_name]
          memoized_results := updateFn ps.memoized_results s none },
        1) := by
  unfold SectionsParser.parse SectionsParser.parse_raw_data
  simp only [h1, h2, h3]

/-- Parsing never changes the host sections. -/
theorem SectionsParser.parse_host_sections {α : Type} (ps : SectionsParser α)
    (s : SectionName) (f : RawData → Option α) :
    ((ps.parse s f).2.1).host_sections = ps.host_sections := by
  unfold SectionsParser.parse SectionsParser.parse_raw_data
  cases h1 : ps.memoized_results s with
  | none =>
    cases h2 : ps.host_sections.sections.lookup s with
    | none => simp
    | some rd => cases h3 : f rd <;> simp [h3]
  | some r => simp

/-- Parsing never changes the host name. -/
theorem SectionsParser.parse_host_name {α : Type} (ps : SectionsParser α)
    (s : SectionName) (f : RawData → Option α) :
    ((ps.parse s f).2.1).host_name = ps.host_name := by
  unfold SectionsParser.parse SectionsParser.parse_raw_data
  cases h1 : ps.memoized_results s with
  | none =>
    cases h2 : ps.host_sections.sections.lookup s with
    | none => simp
    | some rd => cases h3 : f rd <;> simp [h3]
  | some r => simp

/-- Parsing one section does not touch the memoized entry of another. -/
theorem SectionsParser.parse_memoized_other {α : Type} (ps : SectionsParser α)
    (s s' : SectionName) (f : RawData → Option α) (h : s' ≠ s) :
    ((ps.parse s f).2.1).memoized_results s' = ps.memoized_results s' := by
  unfold SectionsParser.parse SectionsParser.parse_raw_data
  cases h1 : ps.memoized_results s with
  | none =>
    cases h2 : ps.host_sections.sections.lookup s with
    | none => simp [updateFn, h]
    | some rd => cases h3 : f rd <;> simp [h3, updateFn, h]
  | some r => simp

/-- After any parse call, the section's entry is memoized. -/
theorem SectionsParser.parse_memoizes {α : Type} (ps : SectionsParser α)
    (s : SectionName) (f : RawData → Option α) :
    ((ps.parse s f).2.1).memoized_results s = some (ps.parse s f).1 := by
  unfold SectionsParser.parse SectionsParser.parse_raw_data
  cases h1 : ps.memoized_results s with
  | none =>
    cases h2 : ps.host_sections.sections.lookup s with
    | none => simp [updateFn]
    | some rd => cases h3 : f rd <;> simp [h3, updateFn]
  | some r => simp [h1]

/-- A superseder step leaves the host sections untouched. -/
theorem superseder_step_host_sections {α : Type} (p : SectionsParser α)
    (sp : SectionPlugin α) :
    (superseder_step p sp).host_sections = p.host_sections := by
  unfold superseder_step
  by_cases h : ((p.parse sp.name sp.parse_function).1).isSome
  · simp [h, SectionsParser.disable_host_sections,
      SectionsParser.parse_host_sections]
  · simp [h, SectionsParser.parse_host_sections]

/-- A superseder step touches no memoized entry outside the superseder's own
raw section and the raw sections it supersedes. -/
theorem superseder_step_memoized_other {α : Type} (p : SectionsParser α)
    (sp : SectionPlugin α) (s : SectionName) (h1 : s ≠ sp.name)
    (h2 : s ∉ sp.supersedes) :
    (superseder_step p sp).memoized_results s = p.memoized_results s := by
  unfold superseder_step
  by_cases h : ((p.parse sp.name sp.parse_function).1).isSome
  · simp [h, SectionsParser.disable_memoized_results, h2,
      SectionsParser.parse_memoized_other _ _ _ _ h1]
  · simp [h, SectionsParser.parse_memoized_other _ _ _ _ h1]

/-- Python `make_providers`.  The plugin registry is a mapping; Python's
`section_plugins[section_name]` raises `KeyError` when the name is missing,
modelled by the whole call returning `none`. -/
def make_providers {α : Type}
    (host_sections : List (HostKey × HostSections))
    (section_plugins : SectionName → Option (SectionPlugin α)) :
    Option (List (HostKey × Provider α)) :=
  host_sections.mapM
    (fun entry =>
      ((entry.2.sections.map Prod.fst).mapM section_plugins).map
        (fun plugins =>
          (entry.1,
            (ParsedSectionsResolver.init plugins,
             SectionsParser.init entry.2 entry.1.hostname))))


/-- Claim C3: for every host key and raw section name, calling
`SectionsParser.parse` twice with the same section name returns the identical
outcome both times (the second call also leaves the state unchanged and never
invokes the parse function), and the parse function runs at most once across
the two calls — hence at most once for the lifetime of the parser instance. -/
theorem claim_C3_idempotent_parse {α : Type} (ps : SectionsParser α)
    (s : SectionName) (f : RawData → Option α) :
    (ps.parse s f).2.1.parse s f = ((ps.parse s f).1, (ps.parse s f).2.1, 0) ∧
    (ps.parse s f).2.2 ≤ 1 := by
  constructor
  · exact SectionsParser.parse_hit _ _ _ _ (SectionsParser.parse_memoizes ps s f)
  · unfold SectionsParser.parse SectionsParser.parse_raw_data
    cases h1 : ps.memoized_results s with
    | none =>
      cases h2 : ps.host_sections.sections.lookup s with
      | none => simp
      | some rd => cases h3 : f rd <;> simp [h3]
    | some r => simp

/-- Claim C9: `SectionsParser.disable` unconditionally overwrites the memoized
entry of every given raw section name with absent; every later parse of such a
name returns absent without invoking the parse function and without changing
state, even when an earlier parse had memoized a successful result. -/
theorem claim_C9_disable_overwrites {α : Type} (ps : SectionsParser α)
    (names : List SectionName) (s : SectionName) (f : RawData → Option α)
    (h : s ∈ names) :
    (ps.disable names).memoized_results s = some none ∧
    (ps.disable names).parse s f = (none, ps.disable names, 0) := by
  have hm : (ps.disable names).memoized_results s = some none := by
    rw [SectionsParser.disable_memoized_results]
    simp [h]
  exact ⟨hm, SectionsParser.parse_hit _ _ _ _ hm⟩

/-- Claim C4: when the parse function raises (debug off), `parse` returns
absent instead of propagating, appends exactly one crash-dump entry, memoizes
absent for that section, and an unrelated healthy section on the same host
still parses successfully afterwards. -/
theorem claim_C4_fault_isolation {α : Type} (ps : SectionsParser α)
    (bad : SectionName) (f : RawData → Option α) (raw : RawData)
    (h1 : ps.memoized_results bad = none)
    (h2 : ps.host_sections.sections.lookup bad = some raw)
    (h3 : f raw = none) :
    (ps.parse bad f).1 = none ∧
    ((ps.parse bad f).2.1).parsing_errors =
      ps.parsing_errors ++
        [create_section_crash_dump "parsing" bad raw ps.host_name] ∧
    ((ps.parse bad f).2.1).memoized_results bad = some none ∧
    ∀ (good : SectionName) (g : RawData → Option α) (rawg : RawData) (v : α),
      good ≠ bad → ps.memoized_results good = none →
      ps.host_sections.sections.lookup good = some rawg → g rawg = some v →
      (((ps.parse bad f).2.1).parse good g).1 =
        some ⟨v, ps.host_sections.cache_info good⟩ := by
  have hf := SectionsParser.parse_fault ps bad f raw h1 h2 h3
  refine ⟨by rw [hf], by rw [hf], ?_, ?_⟩
  · rw [SectionsParser.parse_memoizes, hf]
  · intro good g rawg v hne hm hlook hg
    have hmem : ((ps.parse bad f).2.1).memoized_results good = none := by
      rw [SectionsParser.parse_memoized_other ps bad good f hne]
      exact hm
    have hlook2 :
        ((ps.parse bad f).2.1).host_sections.sections.lookup good = some rawg := by
      rw [SectionsParser.parse_host_sections]
      exact hlook
    rw [SectionsParser.parse_success _ good g rawg v hmem hlook2 hg,
      SectionsParser.parse_host_sections]

/-- Folding `min` over a list stays below the initial value. -/
theorem foldl_min_le_init {β : Type} (f : β → Int) (l : List β) (a : Int) :
    l.foldl (fun m x => min m (f x)) a ≤ a := by
  induction l generalizing a with
  | nil => simp
  | cons x xs ih => exact le_trans (ih (min a (f x))) (min_le_left _ _)

/-- Folding `min` over a list stays below every member's value. -/
theorem foldl_min_le_mem {β : Type} (f : β → Int) (l : List β) (a : Int) :
    ∀ x ∈ l, l.foldl (fun m y => min m (f y)) a ≤ f x := by
  induction l generalizing a with
  | nil => simp
  | cons y ys ih =>
    intro x hx
    rcases List.mem_cons.mp hx with h | h
    · subst h
      exact le_trans (foldl_min_le_init f ys (min a (f x))) (min_le_right _ _)
    · exact ih (min a (f y)) x h

/-- A `min` fold returns the initial value or some member's value. -/
theorem foldl_min_attained {β : Type} (f : β → Int) (l : List β) (a : Int) :
    l.foldl (fun m y => min m (f y)) a = a ∨
      ∃ x ∈ l, l.foldl (fun m y => min m (f y)) a = f x := by
  induction l generalizing a with
  | nil => left; rfl
  | cons y ys ih =>
    rcases ih (min a (f y)) with h | ⟨x, hx, h⟩
    · rcases min_cases a (f y) with ⟨he, _⟩ | ⟨he, _⟩
      · left; rw [List.foldl_cons, h, he]
      · right; exact ⟨y, List.mem_cons_self _ _, by rw [List.foldl_cons, h, he]⟩
    · right; exact ⟨x, List.mem_cons_of_mem _ hx, h⟩

/-- Folding `max` over a list stays above the initial value. -/
theorem foldl_max_ge_init {β : Type} (f : β → Int) (l : List β) (a : Int) :
    a ≤ l.foldl (fun m x => max m (f x)) a := by
  induction l generalizing a with
  | nil => simp
  | cons x xs ih => exact le_trans (le_max_left _ _) (ih (max a (f x)))

/-- Folding `max` over a list stays above every member's value. -/
theorem foldl_max_ge_mem {β : Type} (f : β → Int) (l : List β) (a : Int) :
    ∀ x ∈ l, f x ≤ l.foldl (fun m y => max m (f y)) a := by
  induction l generalizing a with
  | nil => simp
  | cons y ys ih =>
    intro x hx
    rcases List.mem_cons.mp hx with h | h
    · subst h
      exact le_trans (le_max_right _ _) (foldl_max_ge_init f ys (max a (f x)))
    · exact ih (max a (f y)) x h

/-- A `max` fold returns the initial value or some member's value. -/
theorem foldl_max_attained {β : Type} (f : β → Int) (l : List β) (a : Int) :
    l.foldl (fun m y => max m (f y)) a = a ∨
      ∃ x ∈ l, l.foldl (fun m y => max m (f y)) a = f x := by
  induction l generalizing a with
  | nil => left; rfl
  | cons y ys ih =>
    rcases ih (max a (f y)) with h | ⟨x, hx, h⟩
    · rcases max_cases a (f y) with ⟨he, _⟩ | ⟨he, _⟩
      · left; rw [List.foldl_cons, h, he]
      · right; exact ⟨y, List.mem_cons_self _ _, by rw [List.foldl_cons, h, he]⟩
    · right; exact ⟨x, List.mem_cons_of_mem _ hx, h⟩

/-- Claim C5: `get_cache_info` returns absent exactly for the empty input; on a
non-empty input it returns the minimum of all timestamps paired with the
maximum of all validity intervals (a lower respectively upper bound that is
attained by some member); aggregating (100, 60) and (80, 90) gives (80, 90). -/
theorem claim_C5_cache_info_aggregation :
    (∀ l : List CacheInfo, ParsedSectionsBroker.get_cache_info l = none ↔ l = []) ∧
    (∀ (c : CacheInfo) (rest : List CacheInfo), ∃ t i,
      ParsedSectionsBroker.get_cache_info (c :: rest) = some (t, i) ∧
      (∀ x ∈ c :: rest, t ≤ x.1 ∧ x.2 ≤ i) ∧
      (∃ x ∈ c :: rest, x.1 = t) ∧ (∃ x ∈ c :: rest, x.2 = i)) ∧
    ParsedSectionsBroker.get_cache_info [((100 : Int), (60 : Int)), (80, 90)] =
      some (80, 90) := by
  refine ⟨?_, ?_, by decide⟩
  · intro l
    cases l <;> simp [ParsedSectionsBroker.get_cache_info]
  · intro c rest
    refine ⟨_, _, rfl, ?_, ?_, ?_⟩
    · intro x hx
      rcases List.mem_cons.mp hx with h | h
      · subst h
        exact ⟨foldl_min_le_init Prod.fst rest x.1,
          foldl_max_ge_init Prod.snd rest x.2⟩
      · exact ⟨foldl_min_le_mem Prod.fst rest c.1 x h,
          foldl_max_ge_mem Prod.snd rest c.2 x h⟩
    · rcases foldl_min_attained Prod.fst rest c.1 with h | ⟨x, hx, h⟩
      · exact ⟨c, List.mem_cons_self _ _, h.symm⟩
      · exact ⟨x, List.mem_cons_of_mem _ hx, h.symm⟩
    · rcases foldl_max_attained Prod.snd rest c.2 with h | ⟨x, hx, h⟩
      · exact ⟨c, List.mem_cons_self _ _, h.symm⟩
      · exact ⟨x, List.mem_cons_of_mem _ hx, h.symm⟩

/-- The piggyback loop unfolds to a filter of the non-management host keys
followed by a map to (hostname, piggybacked raw data). -/
theorem store_piggybacked_sections_foldl
    (collected : List (HostKey × HostSections))
    (acc : List (HostName × PiggybackData)) :
    collected.foldl
      (fun calls entry =>
        if entry.1.source_type = SourceType.MANAGEMENT then calls
        else calls ++ [(entry.1.hostname, entry.2.piggybacked_raw_data)])
      acc =
    acc ++
      (collected.filter
        (fun entry => entry.1.source_type ≠ SourceType.MANAGEMENT)).map
        (fun entry => (entry.1.hostname, entry.2.piggybacked_raw_data)) := by
  induction collected generalizing acc with
  | nil => simp
  | cons e rest ih =>
    by_cases h : e.1.source_type = SourceType.MANAGEMENT
    · simp [h, ih]
    · simp [h, ih]

/-- Claim C8: `store_piggybacked_sections` never issues a store call for a
management-board host key (deleting such an entry from the input does not
change the issued calls), and issues exactly one store call, carrying the
hostname and the piggybacked raw data, for every other host key, in order. -/
theorem claim_C8_piggyback_skip :
    (∀ collected : List (HostKey × HostSections),
      store_piggybacked_sections collected =
        (collected.filter
          (fun entry => entry.1.source_type ≠ SourceType.MANAGEMENT)).map
          (fun entry => (entry.1.hostname, entry.2.piggybacked_raw_data))) ∧
    (∀ (pre post : List (HostKey × HostSections)) (e : HostKey × HostSections),
      e.1.source_type = SourceType.MANAGEMENT →
      store_piggybacked_sections (pre ++ e :: post) =
        store_piggybacked_sections (pre ++ post)) := by
  have key : ∀ collected : List (HostKey × HostSections),
      store_piggybacked_sections collected =
        (collected.filter
          (fun entry => entry.1.source_type ≠ SourceType.MANAGEMENT)).map
          (fun entry => (entry.1.hostname, entry.2.piggybacked_raw_data)) := by
    intro collected
    unfold store_piggybacked_sections
    rw [store_piggybacked_sections_foldl]
    simp
  refine ⟨key, ?_⟩
  intro pre post e he
  rw [key, key]
  simp [List.filter_append, he]

/-- The `mapM` worker over the `Option` monad succeeds exactly when every
lookup does. -/
theorem mapM_loop_option_isSome {β γ : Type} (f : β → Option γ) (l : List β)
    (acc : List γ) :
    (List.mapM.loop f l acc).isSome ↔ ∀ x ∈ l, (f x).isSome := by
  induction l generalizing acc with
  | nil => simp [List.mapM.loop]
  | cons x xs ih =>
    cases hf : f x <;> simp [List.mapM.loop, hf, ih]

/-- A `mapM` over the `Option` monad succeeds exactly when every lookup does. -/
theorem mapM_option_isSome {β γ : Type} (f : β → Option γ) (l : List β) :
    (l.mapM f).isSome ↔ ∀ x ∈ l, (f x).isSome :=
  mapM_loop_option_isSome f l []

/-- Claim C10: `make_providers` succeeds exactly when every raw section name
stored for any host key is a key of the plugin registry; a single missing name
makes the whole call fault (return `none`) rather than skip the section. -/
theorem claim_C10_make_providers_totality {α : Type}
    (host_sections : List (HostKey × HostSections))
    (section_plugins : SectionName → Option (SectionPlugin α)) :
    (make_providers host_sections section_plugins).isSome ↔
      ∀ entry ∈ host_sections, ∀ sn ∈ entry.2.sections.map Prod.fst,
        (section_plugins sn).isSome := by
  unfold make_providers
  rw [mapM_option_isSome]
  refine forall_congr' (fun entry => forall_congr' (fun he => ?_))
  cases hm : (entry.2.sections.map Prod.fst).mapM section_plugins with
  | none =>
    have hiff := mapM_option_isSome section_plugins (entry.2.sections.map Prod.fst)
    rw [hm] at hiff
    exact ⟨fun h => absurd h (by simp), fun h => hiff.mpr h⟩
  | some plugins =>
    have hiff := mapM_option_isSome section_plugins (entry.2.sections.map Prod.fst)
    rw [hm] at hiff
    exact ⟨fun _ => hiff.mp rfl, fun _ => by simp⟩

/-- The result mapping of one provider's pass over the desired names equals the
provider's own contributions (computed from an empty accumulator) layered over
the incoming accumulator: a non-absent contribution wins, otherwise the old
entry stays. -/
theorem resolveProvider_acc {α : Type} (names : List ParsedSectionName)
    (acc : ParsedSectionName → Option (ResolvedResult α)) (pr : Provider α)
    (n : ParsedSectionName) :
    (ParsedSectionsBroker.resolveProvider acc pr names).1 n =
      match (ParsedSectionsBroker.resolveProvider
          (fun _ => none) pr names).1 n with
      | some v => some v
      | none => acc n := by
  induction names generalizing acc pr with
  | nil => simp [ParsedSectionsBroker.resolveProvider]
  | cons m rest ih =>
    unfold ParsedSectionsBroker.resolveProvider
    cases hr : (pr.1.resolve pr.2 m).1 with
    | some v =>
      simp only [hr]
      rw [ih (updateFn acc m v), ih (updateFn (fun _ => none) m v)]
      cases hC : (ParsedSectionsBroker.resolveProvider (fun _ => none)
          ((pr.1.resolve pr.2 m).2.1, (pr.1.resolve pr.2 m).2.2) rest).1 n with
      | some w => rfl
      | none => by_cases hn : n = m <;> simp [updateFn, hn]
    | none =>
      simp only [hr]
      rw [ih acc]

/-- Claim C6: the broker's result mapping holds an entry only where some
provider resolved non-absent (an empty provider collection yields the empty
mapping), and when several providers resolve the same parsed name, the entry
kept comes from the provider occurring later in the iteration order: the last
provider's own non-absent contribution overwrites whatever the earlier
providers produced. -/
theorem claim_C6_last_writer_wins {α : Type} (names : List ParsedSectionName) :
    (∀ n, ParsedSectionsBroker.resolve names ([] : List (Provider α)) n = none) ∧
    (∀ (ps : List (Provider α)) (pv : Provider α) (n : ParsedSectionName),
      ParsedSectionsBroker.resolve names (ps ++ [pv]) n =
        match ParsedSectionsBroker.resolve names [pv] n with
        | some v => some v
        | none => ParsedSectionsBroker.resolve names ps n) := by
  constructor
  · intro n
    rfl
  · intro ps pv n
    unfold ParsedSectionsBroker.resolve
    rw [List.foldl_append]
    simp only [List.foldl_cons, List.foldl_nil]
    exact resolveProvider_acc names _ pv n

/-- A superseder whose section parses successfully disables everything it
supersedes. -/
theorem superseder_step_success {α : Type} (p p2 : SectionsParser α)
    (sp : SectionPlugin α) (pr : ParsingResult α) (n : Nat)
    (h : p.parse sp.name sp.parse_function = (some pr, p2, n)) :
    superseder_step p sp = p2.disable sp.supersedes := by
  unfold superseder_step
  simp [h]

/-- A superseder whose section does not parse disables nothing. -/
theorem superseder_step_absent {α : Type} (p p2 : SectionsParser α)
    (sp : SectionPlugin α) (n : Nat)
    (h : p.parse sp.name sp.parse_function = (none, p2, n)) :
    superseder_step p sp = p2 := by
  unfold superseder_step
  simp [h]

/-- A producer whose own section parses (after its superseder pass) wins. -/
theorem resolveProducers_cons_some {α : Type}
    (sup : SectionName → List (SectionPlugin α)) (producer : SectionPlugin α)
    (rest : List (SectionPlugin α)) (p p2 : SectionsParser α)
    (pr : ParsingResult α) (n : Nat)
    (h : (((sup producer.name).foldl superseder_step p).parse producer.name
        producer.parse_function) = (some pr, p2, n)) :
    resolveProducers sup (producer :: rest) p =
      (some ⟨producer, pr.data, pr.cache_info⟩, p2) := by
  unfold resolveProducers
  simp [h]

/-- A producer whose own section does not parse is skipped and the loop moves
on to the remaining producers. -/
theorem resolveProducers_cons_none {α : Type}
    (sup : SectionName → List (SectionPlugin α)) (producer : SectionPlugin α)
    (rest : List (SectionPlugin α)) (p p2 : SectionsParser α) (n : Nat)
    (h : (((sup producer.name).foldl superseder_step p).parse producer.name
        producer.parse_function) = (none, p2, n)) :
    resolveProducers sup (producer :: rest) p = resolveProducers sup rest p2 := by
  unfold resolveProducers
  simp only [h]
  cases rest <;> rfl

/-- Claim C1: with plugin A parsing raw section a, plugin B parsing raw
section b, both producing parsed name P, and B superseding a (registration
order A then B, no other supersedence between the two), if raw data for both
a and b is present and B's parse function succeeds, then resolving P returns
B's plugin and B's parsed content, and a subsequent direct parse of a on the
returned parser reports absent. -/
theorem claim_C1_supersedence_precedence {α : Type} (A B : SectionPlugin α)
    (P : ParsedSectionName) (a b : SectionName) (hs : HostSections)
    (host : HostName) (ra rb : RawData) (vb : α)
    (hAn : A.name = a) (hBn : B.name = b)
    (hAp : A.parsed_section_name = P) (hBp : B.parsed_section_name = P)
    (haB : a ∈ B.supersedes) (haA : a ∉ A.supersedes)
    (hbA : b ∉ A.supersedes) (hbB : b ∉ B.supersedes)
    (_hra : hs.sections.lookup a = some ra)
    (hrb : hs.sections.lookup b = some rb)
    (hfb : B.parse_function rb = some vb) :
    ((ParsedSectionsResolver.init [A, B]).resolve
        (SectionsParser.init hs host) P).1 =
      some ⟨B, vb, hs.cache_info b⟩ ∧
    ∀ f, (((ParsedSectionsResolver.init [A, B]).resolve
        (SectionsParser.init hs host) P).2.2.parse a f).1 = none := by
  have hab : a ≠ b := fun he => hbB (he ▸ haB)
  have hprod : ParsedSectionsResolver.init_producers [A, B] P = [A, B] := by
    simp [ParsedSectionsResolver.init_producers, List.filter_cons, hAp, hBp]
  have hsupA : ParsedSectionsResolver.init_superseders [A, B] a = [B] := by
    simp [ParsedSectionsResolver.init_superseders, List.filter_cons, haA, haB]
  have hsupB : ParsedSectionsResolver.init_superseders [A, B] b = [] := by
    simp [ParsedSectionsResolver.init_superseders, List.filter_cons, hbA, hbB]
  -- parse raw section b on the fresh parser
  have hpb := SectionsParser.parse_success
    (SectionsParser.init hs host : SectionsParser α) b B.parse_function rb vb
    rfl hrb hfb
  -- name the parser state after that parse
  obtain ⟨pB, hpb⟩ : ∃ pB,
      (SectionsParser.init hs host : SectionsParser α).parse b B.parse_function =
        (some ⟨vb, hs.cache_info b⟩, pB, 1) := ⟨_, hpb⟩
  have hpBb : pB.memoized_results b = some (some ⟨vb, hs.cache_info b⟩) := by
    have hmz := SectionsParser.parse_memoizes
      (SectionsParser.init hs host : SectionsParser α) b B.parse_function
    rw [hpb] at hmz
    exact hmz
  -- the parser state after the superseder pass of producer A
  have hp1a : (pB.disable B.supersedes).memoized_results a = some none := by
    rw [SectionsParser.disable_memoized_results]
    simp [haB]
  have hp1b : (pB.disable B.supersedes).memoized_results b =
      some (some ⟨vb, hs.cache_info b⟩) := by
    rw [SectionsParser.disable_memoized_results]
    simp [hbB, hpBb]
  -- the superseder pass of producer A: parse b, then disable B.supersedes
  have hfoldA : (ParsedSectionsResolver.init_superseders [A, B] A.name).foldl
      superseder_step (SectionsParser.init hs host) = pB.disable B.supersedes := by
    rw [hAn, hsupA]
    simp only [List.foldl_cons, List.foldl_nil]
    exact superseder_step_success _ _ _ _ _ (by rw [hBn]; exact hpb)
  -- producer A's own section is disabled, so producer A fails
  have hpa : ((ParsedSectionsResolver.init_superseders [A, B] A.name).foldl
      superseder_step (SectionsParser.init hs host)).parse A.name
        A.parse_function = (none, pB.disable B.supersedes, 0) := by
    rw [hfoldA, hAn]
    exact SectionsParser.parse_hit _ _ _ _ hp1a
  -- producer B's superseder pass is empty and its section is memoized
  have hpbB : ((ParsedSectionsResolver.init_superseders [A, B] B.name).foldl
      superseder_step (pB.disable B.supersedes)).parse B.name
        B.parse_function =
      (some ⟨vb, hs.cache_info b⟩, pB.disable B.supersedes, 0) := by
    rw [hBn, hsupB]
    exact SectionsParser.parse_hit _ _ _ _ hp1b
  have hrp : resolveProducers (ParsedSectionsResolver.init_superseders [A, B])
      [A, B] (SectionsParser.init hs host) =
      (some ⟨B, vb, hs.cache_info b⟩, pB.disable B.supersedes) := by
    rw [resolveProducers_cons_none _ _ _ _ _ _ hpa,
      resolveProducers_cons_some _ _ _ _ _ _ _ hpbB]
  have hres1 : ((ParsedSectionsResolver.init [A, B]).resolve
      (SectionsParser.init hs host) P).1 = some ⟨B, vb, hs.cache_info b⟩ := by
    show (resolveProducers (ParsedSectionsResolver.init_superseders [A, B])
      (ParsedSectionsResolver.init_producers [A, B] P)
      (SectionsParser.init hs host)).1 = _
    rw [hprod, hrp]
  have hres2 : ((ParsedSectionsResolver.init [A, B]).resolve
      (SectionsParser.init hs host) P).2.2 = pB.disable B.supersedes := by
    show (resolveProducers (ParsedSectionsResolver.init_superseders [A, B])
      (ParsedSectionsResolver.init_producers [A, B] P)
      (SectionsParser.init hs host)).2 = _
    rw [hprod, hrp]
  refine ⟨hres1, fun f => ?_⟩
  rw [hres2, SectionsParser.parse_hit _ _ _ _ hp1a]

/-- Claim C7: with plugins A and B both producing parsed name P and B
superseding A's raw section a, if raw data for B's section b is absent while
raw data for a is present, resolving P returns A's content: the absent
superseder does not disable or suppress A. -/
theorem claim_C7_fallback_on_absence {α : Type} (A B : SectionPlugin α)
    (P : ParsedSectionName) (a b : SectionName) (hs : HostSections)
    (host : HostName) (ra : RawData) (va : α)
    (hAn : A.name = a) (hBn : B.name = b)
    (hAp : A.parsed_section_name = P) (_hBp : B.parsed_section_name = P)
    (hab : a ≠ b)
    (haB : a ∈ B.supersedes) (haA : a ∉ A.supersedes)
    (hra : hs.sections.lookup a = some ra)
    (hrb : hs.sections.lookup b = none)
    (hfa : A.parse_function ra = some va) :
    ((ParsedSectionsResolver.init [A, B]).resolve
        (SectionsParser.init hs host) P).1 =
      some ⟨A, va, hs.cache_info a⟩ := by
  have hprod : ParsedSectionsResolver.init_producers [A, B] P = [A, B] := by
    simp [ParsedSectionsResolver.init_producers, List.filter_cons, hAp, _hBp]
  have hsupA : ParsedSectionsResolver.init_superseders [A, B] a = [B] := by
    simp [ParsedSectionsResolver.init_superseders, List.filter_cons, haA, haB]
  -- the superseder's raw section is absent
  have hpb := SectionsParser.parse_no_raw
    (SectionsParser.init hs host : SectionsParser α) b B.parse_function rfl hrb
  obtain ⟨pN, hpb⟩ : ∃ pN,
      (SectionsParser.init hs host : SectionsParser α).parse b B.parse_function =
        (none, pN, 0) := ⟨_, hpb⟩
  have hm_a : pN.memoized_results a = none := by
    have hother := SectionsParser.parse_memoized_other
      (SectionsParser.init hs host : SectionsParser α) b a B.parse_function hab
    rw [hpb] at hother
    exact hother
  have hhs : pN.host_sections = hs := by
    have hsec := SectionsParser.parse_host_sections
      (SectionsParser.init hs host : SectionsParser α) b B.parse_function
    rw [hpb] at hsec
    exact hsec
  have hfoldA : (ParsedSectionsResolver.init_superseders [A, B] A.name).foldl
      superseder_step (SectionsParser.init hs host) = pN := by
    rw [hAn, hsupA]
    simp only [List.foldl_cons, List.foldl_nil]
    exact superseder_step_absent _ _ _ _ (by rw [hBn]; exact hpb)
  -- producer A's own section parses successfully
  have hpa := SectionsParser.parse_success pN a A.parse_function ra va hm_a
    (by rw [hhs]; exact hra) hfa
  rw [hhs] at hpa
  obtain ⟨pA, hpa⟩ : ∃ pA,
      pN.parse a A.parse_function = (some ⟨va, hs.cache_info a⟩, pA, 1) :=
    ⟨_, hpa⟩
  have hrp : resolveProducers (ParsedSectionsResolver.init_superseders [A, B])
      [A, B] (SectionsParser.init hs host) =
      (some ⟨A, va, hs.cache_info a⟩, pA) :=
    resolveProducers_cons_some _ _ _ _ _ _ _ (by rw [hfoldA, hAn]; exact hpa)
  show (resolveProducers (ParsedSectionsResolver.init_superseders [A, B])
    (ParsedSectionsResolver.init_producers [A, B] P)
    (SectionsParser.init hs host)).1 = _
  rw [hprod, hrp]

/-- Claim C2: for a supersedence chain x, y, z — Y supersedes x, Z supersedes
y and (as registration-time validation of indirect supersedence requires) also
x — with all three plugins producing the same parsed name, if raw data for z
is present and Z's parse function succeeds, then resolving the parsed name of
x's producer suppresses y as well as x: the result is Z's, not X's or Y's,
and both y and x are treated as absent by the returned parser, whatever raw
data for x and y is or is not present. -/
theorem claim_C2_transitive_suppression {α : Type} (X Y Z : SectionPlugin α)
    (P : ParsedSectionName) (x y z : SectionName) (hs : HostSections)
    (host : HostName) (rz : RawData) (vz : α)
    (hXn : X.name = x) (hYn : Y.name = y) (hZn : Z.name = z)
    (hXp : X.parsed_section_name = P) (hYp : Y.parsed_section_name = P)
    (hZp : Z.parsed_section_name = P)
    (hXs : X.supersedes = []) (hYs : Y.supersedes = [x])
    (hZs : Z.supersedes = [y, x])
    (hxy : x ≠ y) (hxz : x ≠ z) (hyz : y ≠ z)
    (hrz : hs.sections.lookup z = some rz)
    (hfz : Z.parse_function rz = some vz) :
    ((ParsedSectionsResolver.init [X, Y, Z]).resolve
        (SectionsParser.init hs host) P).1 =
      some ⟨Z, vz, hs.cache_info z⟩ ∧
    (∀ f, (((ParsedSectionsResolver.init [X, Y, Z]).resolve
        (SectionsParser.init hs host) P).2.2.parse y f).1 = none) ∧
    (∀ f, (((ParsedSectionsResolver.init [X, Y, Z]).resolve
        (SectionsParser.init hs host) P).2.2.parse x f).1 = none) := by
  have hprod : ParsedSectionsResolver.init_producers [X, Y, Z] P = [X, Y, Z] := by
    simp [ParsedSectionsResolver.init_producers, List.filter_cons, hXp, hYp, hZp]
  have hsupx : ParsedSectionsResolver.init_superseders [X, Y, Z] x = [Y, Z] := by
    simp [ParsedSectionsResolver.init_superseders, List.filter_cons, hXs, hYs,
      hZs]
  have hsupy : ParsedSectionsResolver.init_superseders [X, Y, Z] y = [Z] := by
    simp [ParsedSectionsResolver.init_superseders, List.filter_cons, hXs, hYs,
      hZs, Ne.symm hxy]
  have hsupz : ParsedSectionsResolver.init_superseders [X, Y, Z] z = [] := by
    simp [ParsedSectionsResolver.init_superseders, List.filter_cons, hXs, hYs,
      hZs, Ne.symm hxz, Ne.symm hyz]
  -- the parser after the (arbitrary-outcome) superseder step for Y
  have hq1hs : (superseder_step (SectionsParser.init hs host : SectionsParser α)
      Y).host_sections = hs :=
    superseder_step_host_sections _ _
  have hq1z : (superseder_step (SectionsParser.init hs host : SectionsParser α)
      Y).memoized_results z = none := by
    rw [superseder_step_memoized_other _ _ _ (by rw [hYn]; exact Ne.symm hyz)
      (by rw [hYs]; simp [Ne.symm hxz])]
    rfl
  -- the superseder step for Z parses z successfully
  have hq1parse := SectionsParser.parse_success
    (superseder_step (SectionsParser.init hs host : SectionsParser α) Y) z
    Z.parse_function rz vz hq1z (by rw [hq1hs]; exact hrz) hfz
  rw [hq1hs] at hq1parse
  obtain ⟨q1, hq1parse⟩ : ∃ q1,
      (superseder_step (SectionsParser.init hs host : SectionsParser α)
        Y).parse z Z.parse_function = (some ⟨vz, hs.cache_info z⟩, q1, 1) :=
    ⟨_, hq1parse⟩
  have hq1mz : q1.memoized_results z = some (some ⟨vz, hs.cache_info z⟩) := by
    have hmz := SectionsParser.parse_memoizes
      (superseder_step (SectionsParser.init hs host : SectionsParser α) Y) z
      Z.parse_function
    rw [hq1parse] at hmz
    exact hmz
  have hq2 : superseder_step
      (superseder_step (SectionsParser.init hs host : SectionsParser α) Y) Z =
      q1.disable Z.supersedes :=
    superseder_step_success _ _ _ _ _ (by rw [hZn]; exact hq1parse)
  -- memoization state after producer X's full superseder pass
  have hq2x : (q1.disable Z.supersedes).memoized_results x = some none := by
    rw [SectionsParser.disable_memoized_results]
    simp [hZs]
  have hq2y : (q1.disable Z.supersedes).memoized_results y = some none := by
    rw [SectionsParser.disable_memoized_results]
    simp [hZs]
  have hq2z : (q1.disable Z.supersedes).memoized_results z =
      some (some ⟨vz, hs.cache_info z⟩) := by
    rw [SectionsParser.disable_memoized_results, hZs]
    simp [Ne.symm hxz, Ne.symm hyz, hq1mz]
  have hfoldX : (ParsedSectionsResolver.init_superseders [X, Y, Z] X.name).foldl
      superseder_step (SectionsParser.init hs host) =
      q1.disable Z.supersedes := by
    rw [hXn, hsupx]
    simp only [List.foldl_cons, List.foldl_nil]
    exact hq2
  have hpX : ((ParsedSectionsResolver.init_superseders [X, Y, Z] X.name).foldl
      superseder_step (SectionsParser.init hs host)).parse X.name
        X.parse_function = (none, q1.disable Z.supersedes, 0) := by
    rw [hfoldX, hXn]
    exact SectionsParser.parse_hit _ _ _ _ hq2x
  -- producer Y's superseder pass re-disables, producer Y fails
  have hq3 : superseder_step (q1.disable Z.supersedes) Z =
      (q1.disable Z.supersedes).disable Z.supersedes :=
    superseder_step_success _ _ _ _ _
      (by rw [hZn]; exact SectionsParser.parse_hit _ _ _ _ hq2z)
  have hq3x : ((q1.disable Z.supersedes).disable Z.supersedes).memoized_results
      x = some none := by
    rw [SectionsParser.disable_memoized_results]
    simp [hZs]
  have hq3y : ((q1.disable Z.supersedes).disable Z.supersedes).memoized_results
      y = some none := by
    rw [SectionsParser.disable_memoized_results]
    simp [hZs]
  have hzmem : z ∉ Z.supersedes := by
    rw [hZs]
    simp [Ne.symm hxz, Ne.symm hyz]
  have hq3z : ((q1.disable Z.supersedes).disable Z.supersedes).memoized_results
      z = some (some ⟨vz, hs.cache_info z⟩) := by
    rw [SectionsParser.disable_memoized_results]
    simp [hzmem, hq2z]
  have hfoldY : (ParsedSectionsResolver.init_superseders [X, Y, Z] Y.name).foldl
      superseder_step (q1.disable Z.supersedes) =
      (q1.disable Z.supersedes).disable Z.supersedes := by
    rw [hYn, hsupy]
    simp only [List.foldl_cons, List.foldl_nil]
    exact hq3
  have hpY : ((ParsedSectionsResolver.init_superseders [X, Y, Z] Y.name).foldl
      superseder_step (q1.disable Z.supersedes)).parse Y.name
        Y.parse_function =
      (none, (q1.disable Z.supersedes).disable Z.supersedes, 0) := by
    rw [hfoldY, hYn]
    exact SectionsParser.parse_hit _ _ _ _ hq3y
  -- producer Z wins from the memoized entry
  have hpZ : ((ParsedSectionsResolver.init_superseders [X, Y, Z] Z.name).foldl
      superseder_step ((q1.disable Z.supersedes).disable
        Z.supersedes)).parse Z.name Z.parse_function =
      (some ⟨vz, hs.cache_info z⟩,
        (q1.disable Z.supersedes).disable Z.supersedes, 0) := by
    rw [hZn, hsupz]
    exact SectionsParser.parse_hit _ _ _ _ hq3z
  have hrp : resolveProducers
      (ParsedSectionsResolver.init_superseders [X, Y, Z]) [X, Y, Z]
      (SectionsParser.init hs host) =
      (some ⟨Z, vz, hs.cache_info z⟩,
        (q1.disable Z.supersedes).disable Z.supersedes) := by
    rw [resolveProducers_cons_none _ _ _ _ _ _ hpX,
      resolveProducers_cons_none _ _ _ _ _ _ hpY,
      resolveProducers_cons_some _ _ _ _ _ _ _ hpZ]
  have hres1 : ((ParsedSectionsResolver.init [X, Y, Z]).resolve
      (SectionsParser.init hs host) P).1 = some ⟨Z, vz, hs.cache_info z⟩ := by
    show (resolveProducers (ParsedSectionsResolver.init_superseders [X, Y, Z])
      (ParsedSectionsResolver.init_producers [X, Y, Z] P)
      (SectionsParser.init hs host)).1 = _
    rw [hprod, hrp]
  have hres2 : ((ParsedSectionsResolver.init [X, Y, Z]).resolve
      (SectionsParser.init hs host) P).2.2 =
      (q1.disable Z.supersedes).disable Z.supersedes := by
    show (resolveProducers (ParsedSectionsResolver.init_superseders [X, Y, Z])
      (ParsedSectionsResolver.init_producers [X, Y, Z] P)
      (SectionsParser.init hs host)).2 = _
    rw [hprod, hrp]
  refine ⟨hres1, fun f => ?_, fun f => ?_⟩
  · rw [hres2, SectionsParser.parse_hit _ _ _ _ hq3y]
  · rw [hres2, SectionsParser.parse_hit _ _ _ _ hq3x]

/-- Concrete raw data used by the witnesses. -/
def wRawA : RawData := [["1"]]

/-- Concrete raw data (two rows) used by the witnesses. -/
def wRawB : RawData := [["2"], ["3"]]

/-- Concrete raw data used by the witnesses. -/
def wRawZ : RawData := [["4"]]

/-- Concrete cache-info store used by the witnesses. -/
def wCache : SectionName → Option CacheInfo := fun _ => none

/-- Concrete host sections with raw sections a and b. -/
def wHS : HostSections := ⟨[("a", wRawA), ("b", wRawB)], wCache, []⟩

/-- Concrete host sections with raw sections bad and good. -/
def wHS2 : HostSections := ⟨[("bad", wRawA), ("good", wRawB)], wCache, []⟩

/-- Concrete host sections with raw section a only (b absent). -/
def wHSb : HostSections := ⟨[("a", wRawA)], wCache, []⟩

/-- Concrete host sections with raw sections x and z (y absent). -/
def wHS3 : HostSections := ⟨[("x", wRawA), ("z", wRawZ)], wCache, []⟩

/-- Concrete parse function: row count. -/
def wLen : RawData → Option Nat := fun rd => some rd.length

/-- Concrete always-faulting parse function. -/
def wFail : RawData → Option Nat := fun _ => none

/-- Concrete plugin parsing raw section a into parsed name P. -/
def wA : SectionPlugin Nat := ⟨"a", "P", wLen, []⟩

/-- Concrete plugin parsing raw section b into parsed name P, superseding a. -/
def wB : SectionPlugin Nat := ⟨"b", "P", wLen, ["a"]⟩

/-- Concrete plugin parsing raw section x into parsed name Q. -/
def wX : SectionPlugin Nat := ⟨"x", "Q", wLen, []⟩

/-- Concrete plugin parsing raw section y into parsed name Q, superseding x. -/
def wY : SectionPlugin Nat := ⟨"y", "Q", wLen, ["x"]⟩

/-- Concrete plugin parsing raw section z into parsed name Q, superseding y
and x. -/
def wZ : SectionPlugin Nat := ⟨"z", "Q", wLen, ["y", "x"]⟩

/-- Concrete regular host key. -/
def wHKh : HostKey := ⟨"h1", SourceType.HOST⟩

/-- Concrete management-board host key. -/
def wHKm : HostKey := ⟨"m1", SourceType.MANAGEMENT⟩

/-- Concrete host sections carrying piggybacked raw data. -/
def wPig : HostSections := ⟨[], wCache, [("ph", ["x"])]⟩

/-- Concrete provider pair. -/
def wProv : Provider Nat :=
  (ParsedSectionsResolver.init [wA, wB], SectionsParser.init wHS "host")

/-- Concrete plugin registry knowing the raw sections a and b. -/
def wReg : SectionName → Option (SectionPlugin Nat) :=
  fun sn => if sn = "a" then some wA else if sn = "b" then some wB else none

/-- Concrete plugin registry knowing only the raw section a. -/
def wRegA : SectionName → Option (SectionPlugin Nat) :=
  fun sn => if sn = "a" then some wA else none

/-- Witness for claim C3 at a concrete parser, section and parse function. -/
theorem claim_C3_witness :
    ((SectionsParser.init wHS "host" : SectionsParser Nat).parse "a"
        wLen).2.1.parse "a" wLen =
      (((SectionsParser.init wHS "host" : SectionsParser Nat).parse "a"
          wLen).1,
        ((SectionsParser.init wHS "host" : SectionsParser Nat).parse "a"
          wLen).2.1, 0) ∧
    ((SectionsParser.init wHS "host" : SectionsParser Nat).parse "a"
      wLen).2.2 ≤ 1 :=
  claim_C3_idempotent_parse _ "a" wLen

/-- Witness for claim C9: disabling a already successfully parsed section. -/
theorem claim_C9_witness :
    ("a" : SectionName) ∈ ["a"] ∧
    (((((SectionsParser.init wHS "host" : SectionsParser Nat).parse "a"
        wLen).2.1.disable ["a"]).memoized_results "a" = some none) ∧
      (((SectionsParser.init wHS "host" : SectionsParser Nat).parse "a"
          wLen).2.1.disable ["a"]).parse "a" wLen =
        (none,
          ((SectionsParser.init wHS "host" : SectionsParser Nat).parse "a"
            wLen).2.1.disable ["a"], 0)) :=
  ⟨by decide,
    claim_C9_disable_overwrites _ ["a"] "a" wLen (by decide)⟩

/-- Witness for claim C4: a faulting section bad next to a healthy section
good on one host. -/
theorem claim_C4_witness :
    (SectionsParser.init wHS2 "host" : SectionsParser Nat).memoized_results
        "bad" = none ∧
    (SectionsParser.init wHS2 "host" :
      SectionsParser Nat).host_sections.sections.lookup "bad" = some wRawA ∧
    wFail wRawA = none ∧
    ((SectionsParser.init wHS2 "host" : SectionsParser Nat).parse "bad"
      wFail).1 = none ∧
    ((SectionsParser.init wHS2 "host" : SectionsParser Nat).parse "bad"
        wFail).2.1.parsing_errors =
      [create_section_crash_dump "parsing" "bad" wRawA "host"] ∧
    ((SectionsParser.init wHS2 "host" : SectionsParser Nat).parse "bad"
        wFail).2.1.memoized_results "bad" = some none ∧
    (((SectionsParser.init wHS2 "host" : SectionsParser Nat).parse "bad"
        wFail).2.1.parse "good" wLen).1 = some ⟨2, none⟩ :=
  ⟨rfl, rfl, rfl,
    (claim_C4_fault_isolation (SectionsParser.init wHS2 "host" : SectionsParser Nat) "bad" wFail wRawA rfl rfl rfl).1,
    (claim_C4_fault_isolation (SectionsParser.init wHS2 "host" : SectionsParser Nat) "bad" wFail wRawA rfl rfl rfl).2.1,
    (claim_C4_fault_isolation (SectionsParser.init wHS2 "host" : SectionsParser Nat) "bad" wFail wRawA rfl rfl rfl).2.2.1,
    (claim_C4_fault_isolation (SectionsParser.init wHS2 "host" : SectionsParser Nat) "bad" wFail wRawA rfl rfl rfl).2.2.2
      "good" wLen wRawB 2 (by decide) rfl rfl rfl⟩

/-- Witness for claim C5 at the spec's concrete cache infos. -/
theorem claim_C5_witness :
    ParsedSectionsBroker.get_cache_info [] = none ∧
    ParsedSectionsBroker.get_cache_info [((100 : Int), (60 : Int)), (80, 90)] =
      some (80, 90) :=
  ⟨(claim_C5_cache_info_aggregation.1 []).mpr rfl,
    claim_C5_cache_info_aggregation.2.2⟩

/-- Witness for claim C6 at a concrete provider list. -/
theorem claim_C6_witness :
    ParsedSectionsBroker.resolve ["P"] ([] : List (Provider Nat)) "P" = none ∧
    ParsedSectionsBroker.resolve ["P"] ([] ++ [wProv]) "P" =
      match ParsedSectionsBroker.resolve ["P"] [wProv] "P" with
      | some v => some v
      | none => ParsedSectionsBroker.resolve ["P"] ([] : List (Provider Nat)) "P" :=
  ⟨(claim_C6_last_writer_wins ["P"]).1 "P",
    (claim_C6_last_writer_wins ["P"]).2 [] wProv "P"⟩

/-- Witness for claim C8: one regular host and one management board. -/
theorem claim_C8_witness :
    store_piggybacked_sections [(wHKh, wPig), (wHKm, wPig)] =
      [("h1", [("ph", ["x"])])] ∧
    wHKm.source_type = SourceType.MANAGEMENT ∧
    store_piggybacked_sections ([(wHKh, wPig)] ++ (wHKm, wPig) :: []) =
      store_piggybacked_sections ([(wHKh, wPig)] ++ []) :=
  ⟨by rw [claim_C8_piggyback_skip.1]; rfl, rfl,
    claim_C8_piggyback_skip.2 [(wHKh, wPig)] [] (wHKm, wPig) rfl⟩

/-- Witness for claim C10: a complete registry makes the call succeed, a
registry missing raw section b makes it fault. -/
theorem claim_C10_witness :
    (make_providers [(wHKh, wHS)] wReg).isSome ∧
    ¬ (make_providers [(wHKh, wHS)] wRegA).isSome :=
  ⟨(claim_C10_make_providers_totality [(wHKh, wHS)] wReg).mpr
      (by
        intro entry he sn hsn
        simp only [List.mem_singleton] at he
        subst he
        simp [wHS, wRawA, wRawB] at hsn
        rcases hsn with h | h <;> subst h <;> decide),
    fun h => by
      have hb := (claim_C10_make_providers_totality [(wHKh, wHS)] wRegA).mp h
        (wHKh, wHS) (List.mem_singleton.mpr rfl) "b"
        (by simp [wHS])
      rw [show wRegA "b" = none from rfl] at hb
      exact absurd hb (by decide)⟩

/-- Witness for claim C1: both raw sections present, the superseder wins and
the superseded section reports absent afterwards. -/
theorem claim_C1_witness :
    wA.name = "a" ∧ wB.name = "b" ∧
    wA.parsed_section_name = "P" ∧ wB.parsed_section_name = "P" ∧
    ("a" : SectionName) ∈ wB.supersedes ∧
    ("a" : SectionName) ∉ wA.supersedes ∧
    ("b" : SectionName) ∉ wA.supersedes ∧
    ("b" : SectionName) ∉ wB.supersedes ∧
    wHS.sections.lookup "a" = some wRawA ∧
    wHS.sections.lookup "b" = some wRawB ∧
    wB.parse_function wRawB = some 2 ∧
    ((ParsedSectionsResolver.init [wA, wB]).resolve
        (SectionsParser.init wHS "host") "P").1 = some ⟨wB, 2, none⟩ ∧
    (((ParsedSectionsResolver.init [wA, wB]).resolve
        (SectionsParser.init wHS "host") "P").2.2.parse "a" wLen).1 = none :=
  ⟨rfl, rfl, rfl, rfl, by decide, by decide, by decide, by decide, rfl, rfl,
    rfl,
    (claim_C1_supersedence_precedence wA wB "P" "a" "b" wHS "host" wRawA wRawB
      2 rfl rfl rfl rfl (by decide) (by decide) (by decide) (by decide) rfl
      rfl rfl).1,
    (claim_C1_supersedence_precedence wA wB "P" "a" "b" wHS "host" wRawA wRawB
      2 rfl rfl rfl rfl (by decide) (by decide) (by decide) (by decide) rfl
      rfl rfl).2 wLen⟩

/-- Witness for claim C7: the superseder's raw section is absent, the
superseded plugin supplies the result. -/
theorem claim_C7_witness :
    wA.name = "a" ∧ wB.name = "b" ∧
    wA.parsed_section_name = "P" ∧ wB.parsed_section_name = "P" ∧
    ("a" : SectionName) ≠ "b" ∧
    ("a" : SectionName) ∈ wB.supersedes ∧
    ("a" : SectionName) ∉ wA.supersedes ∧
    wHSb.sections.lookup "a" = some wRawA ∧
    wHSb.sections.lookup "b" = none ∧
    wA.parse_function wRawA = some 1 ∧
    ((ParsedSectionsResolver.init [wA, wB]).resolve
        (SectionsParser.init wHSb "host") "P").1 = some ⟨wA, 1, none⟩ :=
  ⟨rfl, rfl, rfl, rfl, by decide, by decide, by decide, rfl, rfl, rfl,
    claim_C7_fallback_on_absence wA wB "P" "a" "b" wHSb "host" wRawA 1
      rfl rfl rfl rfl (by decide) (by decide) (by decide) rfl rfl rfl⟩

/-- Witness for claim C2: z present, y absent, x present; the chain's top
plugin wins and both x and y report absent afterwards. -/
theorem claim_C2_witness :
    wX.name = "x" ∧ wY.name = "y" ∧ wZ.name = "z" ∧
    wX.parsed_section_name = "Q" ∧ wY.parsed_section_name = "Q" ∧
    wZ.parsed_section_name = "Q" ∧
    wX.supersedes = [] ∧ wY.supersedes = ["x"] ∧ wZ.supersedes = ["y", "x"] ∧
    ("x" : SectionName) ≠ "y" ∧ ("x" : SectionName) ≠ "z" ∧
    ("y" : SectionName) ≠ "z" ∧
    wHS3.sections.lookup "z" = some wRawZ ∧
    wZ.parse_function wRawZ = some 1 ∧
    ((ParsedSectionsResolver.init [wX, wY, wZ]).resolve
        (SectionsParser.init wHS3 "host") "Q").1 = some ⟨wZ, 1, none⟩ ∧
    (((ParsedSectionsResolver.init [wX, wY, wZ]).resolve
        (SectionsParser.init wHS3 "host") "Q").2.2.parse "y" wLen).1 = none ∧
    (((ParsedSectionsResolver.init [wX, wY, wZ]).resolve
        (SectionsParser.init wHS3 "host") "Q").2.2.parse "x" wLen).1 = none :=
  ⟨rfl, rfl, rfl, rfl, rfl, rfl, rfl, rfl, rfl, by decide, by decide,
    by decide, rfl, rfl,
    (claim_C2_transitive_suppression wX wY wZ "Q" "x" "y" "z" wHS3 "host"
      wRawZ 1 rfl rfl rfl rfl rfl rfl rfl rfl rfl (by decide) (by decide)
      (by decide) rfl rfl).1,
    (claim_C2_transitive_suppression wX wY wZ "Q" "x" "y" "z" wHS3 "host"
      wRawZ 1 rfl rfl rfl rfl rfl rfl rfl rfl rfl (by decide) (by decide)
      (by decide) rfl rfl).2.1 wLen,
    (claim_C2_transitive_suppression wX wY wZ "Q" "x" "y" "z" wHS3 "host"
      wRawZ 1 rfl rfl rfl rfl rfl rfl rfl rfl rfl (by decide) (by decide)
      (by decide) rfl rfl).2.2 wLen⟩
